import Mathlib

/-!
Shallow embedding of the xsqlite encryption codec (src/sqlite3crypt.c) and
proofs about it.  Byte buffers are `List Nat` (each entry one byte), machine
integers are `Nat`/`Int`.  Cipher contexts owned through `sqlite3_malloc` /
`sqlite3_free` are modelled by a heap of optional contexts addressed by `Nat`;
out-of-memory paths of `sqlite3_malloc` are not modelled (allocation always
succeeds in the model).
-/

namespace XSqlite

/-- `KEYSIZE` from src/sqlite3crypt.c line 54. -/
def KEYSIZE : Nat := 8

/-- The cipher context (`SQLiteCipherContext`, a union of `unsigned char key[8]`
with `uint64_t num`); modelled by its 8 key bytes, `num` being their
little-endian value (`ctxNum`). -/
structure SQLiteCipherContext where
  key : List Nat
deriving DecidableEq, Repr

/-- The `num` member of the union: the key bytes read as a little-endian
64-bit integer.  Over `Nat` this is `0` exactly when every byte is `0`,
which is the only use the source makes of `num`. -/
def ctxNum (ctx : SQLiteCipherContext) : Nat :=
  ctx.key.foldr (fun b acc => b + 256 * acc) 0

/-- Modelled from the spec: the keystream of the symmetric stream transform
(`mbedtls_arc4`, under crypto/mbedtls/, not under src/).  The spec treats the
cipher as an opaque keyed stream transform; the model derives a deterministic
keystream of the requested length from the key. -/
def streamKeystream (key : List Nat) (n : Nat) : List Nat :=
  let seed := key.foldl (fun a b => (a * 131 + b + 1) % 65536) 7
  (List.range n).map (fun i => (seed * (i + 1) + i * i + 11) % 256)

/-- Modelled from the spec: `mbedtls_arc4_crypt` (crypto/mbedtls/arc4.h, not
under src/), a self-inverse stream transform: XOR the input with a keystream
that depends only on the key and the length. -/
def arc4Crypt (key : List Nat) (inp : List Nat) : List Nat :=
  List.zipWith (fun a b => a ^^^ b) inp (streamKeystream key inp.length)

/-- `SQLiteEncrypt` (src/sqlite3crypt.c lines 65-74): when the key bytes are
not all zero (`ctx->num` nonzero), write the cipher of the first `size` input
bytes over the first `size` bytes of the output buffer; otherwise the output
buffer is left untouched.  `out` is the prior content of the output buffer. -/
def SQLiteEncrypt (ctx : SQLiteCipherContext) (inp out : List Nat)
    (size : Nat) : List Nat :=
  if ctxNum ctx ≠ 0 then arc4Crypt ctx.key (inp.take size) ++ out.drop size
  else out

/-- `SQLiteDecrypt` (src/sqlite3crypt.c lines 83-87): identical to
`SQLiteEncrypt`. -/
def SQLiteDecrypt (ctx : SQLiteCipherContext) (inp out : List Nat)
    (size : Nat) : List Nat :=
  SQLiteEncrypt ctx inp out size

/-- Modelled from the spec: `mbedtls_sha1` (crypto/mbedtls/sha1.h, not under
src/), a deterministic fixed-output (20-byte) hash of a byte sequence. -/
def sha1Digest (msg : List Nat) : List Nat :=
  let h := msg.foldl (fun a b => (a * 33 + b + 1) % 4294967296) 5381
  (List.range 20).map (fun i => (h / (i + 1) + i * 37 + h % 251) % 256)

/-- `CipherContextNew` (src/sqlite3crypt.c lines 109-135): `NULL` passphrase or
length `≤ 0` yield no context; otherwise the key is the `KEYSIZE`-byte prefix
of the hash digest of the passphrase bytes. -/
def CipherContextNew (passphrase : Option (List Nat)) (length : Int) :
    Option SQLiteCipherContext :=
  match passphrase with
  | none => none
  | some bs =>
    if length ≤ 0 then none
    else some ⟨(sha1Digest (bs.take length.toNat)).take KEYSIZE⟩

theorem streamKeystream_length (key : List Nat) (n : Nat) :
    (streamKeystream key n).length = n := by
  simp [streamKeystream]

theorem zipWith_xor_cancel :
    ∀ (x k : List Nat), k.length = x.length →
      List.zipWith (fun a b => a ^^^ b)
        (List.zipWith (fun a b => a ^^^ b) x k) k = x
  | [], [], _ => rfl
  | a :: x, b :: k, h => by
    simp only [List.zipWith]
    have hx : k.length = x.length := by
      simpa using h
    rw [Nat.xor_assoc, Nat.xor_self, Nat.xor_zero]
    rw [zipWith_xor_cancel x k hx]
  | [], _ :: _, h => by simp at h
  | _ :: _, [], h => by simp at h

theorem arc4Crypt_length (key inp : List Nat) :
    (arc4Crypt key inp).length = inp.length := by
  simp [arc4Crypt, streamKeystream_length]

/-- The heap of `sqlite3_malloc`-owned cipher contexts: entry `a` is `none`
when address `a` has been freed. -/
abbrev CtxHeap := List (Option SQLiteCipherContext)

/-- Read the context stored at address `a` (freed or out-of-range yields
`none`). -/
def heapGet (h : CtxHeap) (a : Nat) : Option SQLiteCipherContext :=
  h.getD a none

/-- `sqlite3_free` on a context address. -/
def heapFree (h : CtxHeap) (a : Nat) : CtxHeap :=
  h.set a none

/-- Allocating wrapper for `CipherContextNew`: the fresh context (when one is
produced) is placed at a fresh heap address. -/
def CipherContextNewAlloc (h : CtxHeap) (passphrase : Option (List Nat))
    (length : Int) : CtxHeap × Option Nat :=
  match CipherContextNew passphrase length with
  | none => (h, none)
  | some c => (h.concat (some c), some h.length)

/-- `CipherContextClone` (src/sqlite3crypt.c lines 142-150): copy the bytes at
`org` into a freshly allocated context.  The source does not validate `org`;
cloning a freed address stores `none` (undefined behaviour in C). -/
def CipherContextClone (h : CtxHeap) (org : Nat) : CtxHeap × Nat :=
  (h.concat (heapGet h org), h.length)

/-- `CodecCryptBlock` (src/sqlite3crypt.c lines 92-99).  `readCtx` and
`writeCtx` are heap addresses (`none` = `NULL` pointer); `cryptBuffer` is the
allocated scratch buffer's contents (`none` = `NULL`), its length the
allocation size. -/
structure CodecCryptBlock where
  pager : Nat
  pageSize : Int
  readCtx : Option Nat
  writeCtx : Option Nat
  cryptBuffer : Option (List Nat)
deriving DecidableEq, Repr

/-- `CreateCodeCryptBlock` (src/sqlite3crypt.c lines 160-191).  `pagerId` and
`pagerPS` stand for the `Pager*` argument and its `pageSize` field; `malloc`
is modelled as always succeeding.  A fresh `cryptBuffer` allocation has
unspecified contents, modelled as zero bytes of the allocated length. -/
def CreateCodeCryptBlock (ctx : Option Nat) (pagerId : Nat) (pagerPS : Int)
    (pageSize : Int) (existing : Option CodecCryptBlock) : CodecCryptBlock :=
  let block : CodecCryptBlock :=
    match existing with
    | none =>
      { pager := 0, pageSize := 0, readCtx := ctx, writeCtx := ctx,
        cryptBuffer := none }
    | some b => b
  let ps := if pageSize = -1 then pagerPS else pageSize
  let block := { block with pager := pagerId }
  if block.pageSize ≠ ps then
    { block with pageSize := ps,
                 cryptBuffer := some (List.replicate ps.toNat 0) }
  else block

/-- `FreeCodecCryptBlock` (src/sqlite3crypt.c lines 197-215): the effect on the
context heap (the buffer and the block itself are values in the model). -/
def FreeCodecCryptBlock (h : CtxHeap) (block : CodecCryptBlock) : CtxHeap :=
  let h1 := match block.readCtx with
            | some a => heapFree h a
            | none => h
  match block.writeCtx with
  | some a => if block.writeCtx ≠ block.readCtx then heapFree h1 a else h1
  | none => h1

/-- `SQLite3CodecSizeChangedCallback` (src/sqlite3crypt.c lines 233-239):
records the new page size without touching the scratch buffer. -/
def SQLite3CodecSizeChangedCallback (block : CodecCryptBlock) (pageSize : Int)
    (reservedSize : Int) : CodecCryptBlock :=
  if block.pageSize ≠ pageSize then { block with pageSize := pageSize }
  else block

/-- Which buffer the codec callback returns: the caller's input buffer or the
block's scratch buffer. -/
inductive CodecRet where
  | inputBuf
  | scratchBuf
deriving DecidableEq, Repr

/-- Dereference a context pointer held in a block.  The source dereferences
unconditionally once the pointer is non-`NULL`; reading a freed address is
undefined behaviour in C, modelled by a fixed all-zero context. -/
def derefCtx (h : CtxHeap) (a : Nat) : SQLiteCipherContext :=
  (heapGet h a).getD ⟨List.replicate KEYSIZE 0⟩

/-- `SQLite3CodecCallback` (src/sqlite3crypt.c lines 256-299).  Returns the
(possibly mutated in place) input buffer, the updated block (its scratch
buffer may have been overwritten), and which of the two buffers the C function
returns. -/
def SQLite3CodecCallback (h : CtxHeap) (pArg : Option CodecCryptBlock)
    (data : List Nat) (nPageNum : Nat) (nMode : Nat) :
    List Nat × Option CodecCryptBlock × CodecRet :=
  match pArg with
  | none => (data, none, CodecRet.inputBuf)
  | some block =>
    let pageSize := block.pageSize.toNat
    if nMode = 0 ∨ nMode = 2 ∨ nMode = 3 then
      match block.readCtx with
      | none => (data, some block, CodecRet.inputBuf)
      | some a =>
        (SQLiteDecrypt (derefCtx h a) data data pageSize, some block,
         CodecRet.inputBuf)
    else if nMode = 6 then
      match block.writeCtx with
      | none => (data, some block, CodecRet.inputBuf)
      | some a =>
        let buf := SQLiteEncrypt (derefCtx h a) data
          (block.cryptBuffer.getD []) pageSize
        (data, some { block with cryptBuffer := some buf },
         CodecRet.scratchBuf)
    else if nMode = 7 then
      match block.readCtx with
      | none => (data, some block, CodecRet.inputBuf)
      | some a =>
        let buf := SQLiteEncrypt (derefCtx h a) data
          (block.cryptBuffer.getD []) pageSize
        (data, some { block with cryptBuffer := some buf },
         CodecRet.scratchBuf)
    else (data, some block, CodecRet.inputBuf)

/-- Result of `sqlite3CodecAttach`: the return code, the context heap, and the
codec block registered for the attached database's pager (`none` when no codec
is registered). -/
structure AttachResult where
  rc : Nat
  heap : CtxHeap
  newCodec : Option CodecCryptBlock
deriving DecidableEq, Repr

/-- `SQLITE_OK`. -/
def SQLITE_OK : Nat := 0
/-- `SQLITE_ERROR`. -/
def SQLITE_ERROR : Nat := 1
/-- `SQLITE_NOMEM`. -/
def SQLITE_NOMEM : Nat := 7

/-- `sqlite3CodecAttach` (src/sqlite3crypt.c lines 310-367).  `primary` is the
codec block currently registered for database 0 (`sqlite3PagerGetCodec` on
`db->aDb[0]`); `pagerId`/`pagerPS` stand for `db->aDb[nDb]`'s pager and its
page size. -/
def sqlite3CodecAttach (h : CtxHeap) (primary : Option CodecCryptBlock)
    (nDb : Nat) (pKey : Option (List Nat)) (nKeyLen : Int)
    (pagerId : Nat) (pagerPS : Int) : AttachResult :=
  if pKey = none ∨ nKeyLen = 0 then
    if nDb = 0 then ⟨SQLITE_OK, h, none⟩
    else
      match primary with
      | none => ⟨SQLITE_OK, h, none⟩
      | some pBlock =>
        match pBlock.readCtx with
        | none => ⟨SQLITE_OK, h, none⟩
        | some a =>
          let h1 := (CipherContextClone h a).1
          let ctxAddr := (CipherContextClone h a).2
          let block := CreateCodeCryptBlock (some ctxAddr) pagerId pagerPS
            (-1) none
          ⟨SQLITE_OK, h1, some block⟩
  else
    match (CipherContextNewAlloc h pKey nKeyLen).2 with
    | none => ⟨SQLITE_NOMEM, h, none⟩
    | some ctxAddr =>
      let h1 := (CipherContextNewAlloc h pKey nKeyLen).1
      let block := CreateCodeCryptBlock (some ctxAddr) pagerId pagerPS
        (-1) none
      ⟨SQLITE_OK, h1, some block⟩

/-- `sqlite3CodecGetKey` (src/sqlite3crypt.c lines 378-390).  `primary` is the
codec block of database 0 (the only one consulted); `ppKey`/`pnKeyLen` model
the out-pointers: `none` is a `NULL` pointer, `some v` a pointer to current
value `v`; the result is what each points to afterwards. -/
def sqlite3CodecGetKey (primary : Option CodecCryptBlock) (nDb : Nat)
    (ppKey : Option Nat) (pnKeyLen : Option Nat) : Option Nat × Option Nat :=
  let ppKeyOut := match ppKey with
                  | some _ => some 0
                  | none => none
  let pnKeyLenOut := match pnKeyLen, primary with
                     | some _, some _ => some 1
                     | some v, none => some v
                     | none, _ => none
  (ppKeyOut, pnKeyLenOut)

/-- The page-manager oracle for the rekey rewrite: result codes of
`sqlite3BtreeBeginTrans`, `sqlite3PagerGet` and `sqlite3PagerWrite` per page,
`sqlite3BtreeCommit`, the page count, and `PAGER_MJ_PGNO`. -/
structure PagerOracle where
  beginRc : Nat
  getRc : Nat → Nat
  writeRc : Nat → Nat
  commitRc : Nat
  pageCount : Nat
  mjPgno : Nat

/-- One iteration of the rekey rewrite loop (src/sqlite3crypt.c lines
497-505): the skipped page keeps the current `rc`; otherwise `rc` is
overwritten with this page's get result, then its write result if the get
succeeded. -/
def rekeyPageStep (o : PagerOracle) (rc : Nat) (n : Nat) : Nat :=
  if n = o.mjPgno then rc
  else
    let g := o.getRc n
    if g = 0 then o.writeRc n else g

/-- Result of `sqlite3_rekey_v2`: return code, context heap, the codec block
left registered on the pager (`none` when removed or never present),
whether `sqlite3BtreeCommit` was called and whether `sqlite3BtreeRollback`
was called. -/
structure RekeyResult where
  rc : Nat
  heap : CtxHeap
  codec : Option CodecCryptBlock
  committed : Bool
  rolledBack : Bool
deriving Repr

/-- Key reconciliation at the end of `sqlite3_rekey_v2` (src/sqlite3crypt.c
lines 518-531): on success (`rc == SQLITE_OK`) the read key becomes the write
key; on failure the write key is restored to the read key. -/
def rekeyReconcileBlock (block : CodecCryptBlock) (rcAfter : Nat) :
    CodecCryptBlock :=
  if rcAfter = 0 then { block with readCtx := block.writeCtx }
  else { block with writeCtx := block.readCtx }

/-- Codec deregistration at the end of `sqlite3_rekey_v2` (src/sqlite3crypt.c
lines 537-539): when both keys are empty the codec is removed from the
pager. -/
def rekeyCodecOut (block2 : CodecCryptBlock) : Option CodecCryptBlock :=
  if block2.readCtx = none ∧ block2.writeCtx = none then none
  else some block2

/-- `sqlite3_rekey_v2` (src/sqlite3crypt.c lines 449-544).  `codec` is the
block currently registered for database 0's pager, `pagerId`/`pagerPS` that
pager and its page size, `o` the page-manager oracle. -/
def sqlite3_rekey_v2 (h : CtxHeap) (codec : Option CodecCryptBlock)
    (pKey : Option (List Nat)) (nKey : Int) (pagerId : Nat) (pagerPS : Int)
    (o : PagerOracle) : RekeyResult :=
  let h1 := (CipherContextNewAlloc h pKey nKey).1
  let ctx := (CipherContextNewAlloc h pKey nKey).2
  let block :=
    match codec with
    | none =>
      let b := CreateCodeCryptBlock ctx pagerId pagerPS (-1) none
      { b with readCtx := none }
    | some b => { b with writeCtx := ctx }
  let rcBegin := o.beginRc
  let rcLoop :=
    if rcBegin = 0 then (List.range' 1 o.pageCount).foldl (rekeyPageStep o) 0
    else rcBegin
  let committed := rcLoop = 0
  let rolledBack := rcLoop ≠ 0
  let rcAfter := if rcLoop = 0 then o.commitRc else rcLoop
  let h2 :=
    if rcAfter = 0 then
      match block.readCtx with
      | some a => heapFree h1 a
      | none => h1
    else
      match block.writeCtx with
      | some a => heapFree h1 a
      | none => h1
  let block2 := rekeyReconcileBlock block rcAfter
  let heapOut :=
    if block2.readCtx = none ∧ block2.writeCtx = none then
      FreeCodecCryptBlock h2 block2
    else h2
  { rc := rcAfter, heap := heapOut, codec := rekeyCodecOut block2,
    committed := committed, rolledBack := rolledBack }

theorem arc4Crypt_involutive (key inp : List Nat) :
    arc4Crypt key (arc4Crypt key inp) = inp := by
  unfold arc4Crypt
  rw [List.length_zipWith, streamKeystream_length, Nat.min_self]
  exact zipWith_xor_cancel inp (streamKeystream key inp.length)
    (streamKeystream_length key inp.length)

theorem heapGet_concat_lt (h : CtxHeap) (x : Option SQLiteCipherContext)
    (a : Nat) (ha : a < h.length) : heapGet (h.concat x) a = heapGet h a := by
  simp [heapGet, List.getD_eq_getElem?_getD, List.concat_eq_append,
    List.getElem?_append_left ha]

theorem heapGet_concat_self (h : CtxHeap) (x : Option SQLiteCipherContext) :
    heapGet (h.concat x) h.length = x := by
  simp [heapGet, List.getD_eq_getElem?_getD]

theorem heapGet_free_ne (h : CtxHeap) (a b : Nat) (hab : b ≠ a) :
    heapGet (heapFree h b) a = heapGet h a := by
  simp [heapGet, heapFree, List.getD_eq_getElem?_getD,
    List.getElem?_set_ne hab]

/-- Claim C2, counterexample: with a non-absent context whose eight key bytes
are all zero, `SQLiteEncrypt` does not apply the cipher — it leaves the output
buffer untouched — so the result differs from the cipher of the all-zero key
and absence of encryption is in fact inferred from all-zero key material. -/
theorem c2_counterexample :
    SQLiteEncrypt ⟨[0, 0, 0, 0, 0, 0, 0, 0]⟩ [1, 2, 3, 4] [9, 9, 9, 9] 4 =
      [9, 9, 9, 9] ∧
    SQLiteEncrypt ⟨[0, 0, 0, 0, 0, 0, 0, 0]⟩ [1, 2, 3, 4] [1, 2, 3, 4] 4 ≠
      arc4Crypt [0, 0, 0, 0, 0, 0, 0, 0] ([1, 2, 3, 4].take 4) ++
        ([1, 2, 3, 4].drop 4) := by
  constructor
  · rfl
  · decide

/-- Claim C2, amended: for a non-absent Cipher Context whose key bytes are all
zero (the union's `num` member reads zero), the encrypt and decrypt transforms
do not apply the cipher: the output buffer is returned untouched, and decrypt
dispatch passes the page through unchanged, exactly as an absent context
would — the `if (ctx->num)` test infers absence of encryption from all-zero
key material. -/
theorem c2_zero_key_passthrough :
    (∀ (ctx : SQLiteCipherContext) (inp out : List Nat) (size : Nat),
      ctxNum ctx = 0 →
        SQLiteEncrypt ctx inp out size = out ∧
        SQLiteDecrypt ctx inp out size = out) ∧
    (∀ (h : CtxHeap) (block : CodecCryptBlock) (data : List Nat)
        (pn mode a : Nat),
      block.readCtx = some a → ctxNum (derefCtx h a) = 0 →
      mode = 0 ∨ mode = 2 ∨ mode = 3 →
        (SQLite3CodecCallback h (some block) data pn mode).1 = data) := by
  constructor
  · intro ctx inp out size hz
    constructor
    · simp [SQLiteEncrypt, hz]
    · simp [SQLiteDecrypt, SQLiteEncrypt, hz]
  · intro h block data pn mode a hr hz hm
    rcases hm with hm | hm | hm <;>
      simp [hm, SQLite3CodecCallback, hr, SQLiteDecrypt, SQLiteEncrypt, hz]

/-- Claim C2, witness for the amended theorem at a concrete input. -/
theorem c2_zero_key_passthrough_witness :
    SQLiteEncrypt ⟨[0, 0, 0, 0, 0, 0, 0, 0]⟩ [1, 2, 3] [7, 8, 9] 3 =
      [7, 8, 9] := by
  exact (c2_zero_key_passthrough.1 ⟨[0, 0, 0, 0, 0, 0, 0, 0]⟩ [1, 2, 3]
    [7, 8, 9] 3 (by decide)).1

/-- Claim C3: with a non-absent read-key context, the codec dispatch for mode
7 (write page to rollback journal) encrypts the page under the read-key
context into the scratch buffer, returns the scratch buffer, leaves the input
buffer untouched, and its outcome is unchanged under any replacement of the
write-key context. -/
theorem c3_journal_write_uses_read_key
    (h : CtxHeap) (block : CodecCryptBlock) (data : List Nat) (pn a : Nat)
    (c : SQLiteCipherContext) (hr : block.readCtx = some a)
    (hc : heapGet h a = some c) :
    SQLite3CodecCallback h (some block) data pn 7 =
      (data,
       some { block with cryptBuffer := some (SQLiteEncrypt c data
         (block.cryptBuffer.getD []) block.pageSize.toNat) },
       CodecRet.scratchBuf) ∧
    ∀ (w : Option Nat),
      SQLite3CodecCallback h (some { block with writeCtx := w }) data pn 7 =
        (data,
         some { block with
           writeCtx := w,
           cryptBuffer := some (SQLiteEncrypt c data
             (block.cryptBuffer.getD []) block.pageSize.toNat) },
         CodecRet.scratchBuf) := by
  constructor
  · simp [SQLite3CodecCallback, hr, derefCtx, hc]
  · intro w
    simp [SQLite3CodecCallback, hr, derefCtx, hc]

/-- Claim C3, witness at a concrete input. -/
theorem c3_journal_write_uses_read_key_witness :
    SQLite3CodecCallback [some ⟨[1, 0, 0, 0, 0, 0, 0, 0]⟩]
      (some { pager := 1, pageSize := 4, readCtx := some 0,
              writeCtx := some 0, cryptBuffer := some [9, 9, 9, 9] })
      [1, 2, 3, 4] 5 7 =
      (     [1, 2, 3, 4],
       some { pager := 1, pageSize := 4, readCtx := some 0,
              writeCtx := some 0,
              cryptBuffer := some (SQLiteEncrypt ⟨[1, 0, 0, 0, 0, 0, 0, 0]⟩
                [1, 2, 3, 4] [9, 9, 9, 9] 4) },
       CodecRet.scratchBuf) := by
  exact (c3_journal_write_uses_read_key [some ⟨[1, 0, 0, 0, 0, 0, 0, 0]⟩]
    { pager := 1, pageSize := 4, readCtx := some 0, writeCtx := some 0,
      cryptBuffer := some [9, 9, 9, 9] }
    [1, 2, 3, 4] 5 0 ⟨[1, 0, 0, 0, 0, 0, 0, 0]⟩ rfl rfl).1

/-- Claim C7, counterexample: a dispatch call with the encrypting purpose mode
6 on a block whose write-key context is absent returns the caller's input
buffer, not the scratch buffer, so the claim as stated fails. -/
theorem c7_counterexample :
    (SQLite3CodecCallback [some ⟨[1, 0, 0, 0, 0, 0, 0, 0]⟩]
      (some { pager := 1, pageSize := 4, readCtx := some 0, writeCtx := none,
              cryptBuffer := some [9, 9, 9, 9] })
      [1, 2, 3, 4] 5 6).2.2 ≠ CodecRet.scratchBuf := by
  decide

/-- Claim C7, amended: encrypting purposes (modes 6 and 7) never mutate the
input buffer and return the scratch buffer exactly when the applicable key
context (write key for mode 6, read key for mode 7) is present, returning the
untouched input buffer when it is absent; decrypting purposes (modes 0, 2, 3)
always return the input buffer, leave the block (hence the scratch buffer)
unchanged, and transform the input in place under the read-key context when
one is present. -/
theorem c7_amended :
    ∀ (h : CtxHeap) (block : CodecCryptBlock) (data : List Nat) (pn : Nat),
      ((SQLite3CodecCallback h (some block) data pn 6).1 = data ∧
       (SQLite3CodecCallback h (some block) data pn 7).1 = data) ∧
      (block.writeCtx.isSome →
        (SQLite3CodecCallback h (some block) data pn 6).2.2 =
          CodecRet.scratchBuf) ∧
      (block.writeCtx = none →
        SQLite3CodecCallback h (some block) data pn 6 =
          (data, some block, CodecRet.inputBuf)) ∧
      (block.readCtx.isSome →
        (SQLite3CodecCallback h (some block) data pn 7).2.2 =
          CodecRet.scratchBuf) ∧
      (block.readCtx = none →
        SQLite3CodecCallback h (some block) data pn 7 =
          (data, some block, CodecRet.inputBuf)) ∧
      (∀ mode, mode = 0 ∨ mode = 2 ∨ mode = 3 →
        (SQLite3CodecCallback h (some block) data pn mode).2 =
          (some block, CodecRet.inputBuf) ∧
        ∀ a, block.readCtx = some a →
          (SQLite3CodecCallback h (some block) data pn mode).1 =
            SQLiteDecrypt (derefCtx h a) data data block.pageSize.toNat) := by
  intro h block data pn
  refine ⟨⟨?_, ?_⟩, ?_, ?_, ?_, ?_, ?_⟩
  · cases hw : block.writeCtx <;> simp [SQLite3CodecCallback, hw]
  · cases hr : block.readCtx <;> simp [SQLite3CodecCallback, hr]
  · intro hw
    cases hw' : block.writeCtx with
    | none => rw [hw'] at hw; simp at hw
    | some a => simp [SQLite3CodecCallback, hw']
  · intro hw
    simp [SQLite3CodecCallback, hw]
  · intro hr
    cases hr' : block.readCtx with
    | none => rw [hr'] at hr; simp at hr
    | some a => simp [SQLite3CodecCallback, hr']
  · intro hr
    simp [SQLite3CodecCallback, hr]
  · intro mode hm
    rcases hm with hm | hm | hm <;> subst hm <;>
      exact ⟨by cases hr : block.readCtx <;> simp [SQLite3CodecCallback, hr],
             fun a ha => by simp [SQLite3CodecCallback, ha]⟩

/-- Claim C7, witness for the amended theorem at a concrete input. -/
theorem c7_amended_witness :
    (SQLite3CodecCallback [some ⟨[1, 0, 0, 0, 0, 0, 0, 0]⟩]
      (some { pager := 1, pageSize := 4, readCtx := some 0,
              writeCtx := some 0, cryptBuffer := some [9, 9, 9, 9] })
      [1, 2, 3, 4] 5 6).2.2 = CodecRet.scratchBuf := by
  exact (c7_amended [some ⟨[1, 0, 0, 0, 0, 0, 0, 0]⟩]
    { pager := 1, pageSize := 4, readCtx := some 0, writeCtx := some 0,
      cryptBuffer := some [9, 9, 9, 9] }
    [1, 2, 3, 4] 5).2.1 (by decide)

/-- Claim C10: `sqlite3CodecGetKey` always writes a null key pointer through
`ppKey`, writes key length 1 through `pnKeyLen` exactly when the primary
database has a codec block registered (leaving the pointee untouched
otherwise), and its outputs depend only on whether the primary block exists —
not on the requested database index or on any key bytes. -/
theorem c10_get_key_reveals_nothing :
    ∀ (primary : Option CodecCryptBlock) (nDb : Nat)
      (ppKey pnKeyLen : Option Nat),
      (sqlite3CodecGetKey primary nDb ppKey pnKeyLen).1 =
        ppKey.map (fun _ => 0) ∧
      (primary.isSome →
        (sqlite3CodecGetKey primary nDb ppKey pnKeyLen).2 =
          pnKeyLen.map (fun _ => 1)) ∧
      (primary = none →
        (sqlite3CodecGetKey primary nDb ppKey pnKeyLen).2 = pnKeyLen) ∧
      (∀ (primary' : Option CodecCryptBlock) (nDb' : Nat),
        primary.isSome = primary'.isSome →
        sqlite3CodecGetKey primary nDb ppKey pnKeyLen =
          sqlite3CodecGetKey primary' nDb' ppKey pnKeyLen) := by
  intro primary nDb ppKey pnKeyLen
  refine ⟨?_, ?_, ?_, ?_⟩
  · cases ppKey <;> cases primary <;> rfl
  · intro hp
    cases primary with
    | none => simp at hp
    | some b => cases pnKeyLen <;> rfl
  · intro hp
    subst hp
    cases pnKeyLen <;> rfl
  · intro primary' nDb' hsame
    cases primary <;> cases primary' <;> simp at hsame <;>
      cases ppKey <;> cases pnKeyLen <;> rfl

/-- Claim C10, witness at a concrete input. -/
theorem c10_get_key_reveals_nothing_witness :
    (sqlite3CodecGetKey
      (some { pager := 1, pageSize := 4, readCtx := some 0,
              writeCtx := some 0, cryptBuffer := some [9, 9, 9, 9] })
      3 (some 5) (some 5)).2 = (some 5).map (fun _ => 1) := by
  exact (c10_get_key_reveals_nothing
    (some { pager := 1, pageSize := 4, readCtx := some 0, writeCtx := some 0,
            cryptBuffer := some [9, 9, 9, 9] })
    3 (some 5) (some 5)).2.1 (by decide)

theorem sha1Digest_length (msg : List Nat) : (sha1Digest msg).length = 20 := by
  simp [sha1Digest]

/-- Claim C9: key derivation is a deterministic function of the passphrase
bytes — a positive length yields a context whose key is the `KEYSIZE`-byte
prefix of the fixed-output hash digest of the passphrase (equal passphrase
bytes give equal contexts), and an absent passphrase or non-positive length
yields the absent context. -/
theorem c9_key_derivation :
    ∀ (bs : List Nat) (len : Int),
      (0 < len →
        CipherContextNew (some bs) len =
          some ⟨(sha1Digest (bs.take len.toNat)).take KEYSIZE⟩) ∧
      (0 < len → ∀ (bs' : List Nat) (len' : Int), 0 < len' →
        bs'.take len'.toNat = bs.take len.toNat →
        CipherContextNew (some bs') len' = CipherContextNew (some bs) len) ∧
      (len ≤ 0 → CipherContextNew (some bs) len = none) ∧
      CipherContextNew none len = none ∧
      (∀ c, CipherContextNew (some bs) len = some c →
        c.key.length = KEYSIZE) := by
  intro bs len
  refine ⟨?_, ?_, ?_, rfl, ?_⟩
  · intro hl
    simp [CipherContextNew, not_le.mpr hl]
  · intro hl bs' len' hl' heq
    simp [CipherContextNew, not_le.mpr hl, not_le.mpr hl', heq]
  · intro hl
    simp [CipherContextNew, hl]
  · intro c hc
    by_cases hl : len ≤ 0
    · simp [CipherContextNew, hl] at hc
    · simp [CipherContextNew, hl] at hc
      simp [← hc, List.length_take, sha1Digest_length, KEYSIZE]

/-- Claim C9, witness at a concrete input. -/
theorem c9_key_derivation_witness :
    CipherContextNew (some [97, 98]) 2 =
      some ⟨(sha1Digest ([97, 98].take (2 : Int).toNat)).take KEYSIZE⟩ := by
  exact (c9_key_derivation [97, 98] 2).1 (by decide)

theorem encrypt_decrypt_inplace (c : SQLiteCipherContext) (page : List Nat) :
    SQLiteDecrypt c (SQLiteEncrypt c page page page.length)
      (SQLiteEncrypt c page page page.length) page.length = page := by
  by_cases hz : ctxNum c = 0
  · simp [SQLiteDecrypt, SQLiteEncrypt, hz]
  · have he : SQLiteEncrypt c page page page.length = arc4Crypt c.key page := by
      simp [SQLiteEncrypt, hz, List.take_length, List.drop_length]
    have hlen : (arc4Crypt c.key page).length = page.length :=
      arc4Crypt_length _ _
    rw [SQLiteDecrypt, he, SQLiteEncrypt, if_pos hz]
    rw [← hlen, List.take_length, List.drop_length, List.append_nil]
    exact arc4Crypt_involutive c.key page

/-- Claim C6: for every non-empty passphrase, key derivation succeeds and
decrypting the in-place encryption of any page under the derived context
returns the original page — the transform is self-inverse (encrypt and
decrypt are the same function). -/
theorem c6_encrypt_decrypt_roundtrip (p page : List Nat) (hp : p ≠ []) :
    (CipherContextNew (some p) (p.length : Int)).isSome ∧
    SQLiteDecrypt ((CipherContextNew (some p) (p.length : Int)).getD ⟨[]⟩)
      (SQLiteEncrypt ((CipherContextNew (some p) (p.length : Int)).getD ⟨[]⟩)
        page page page.length)
      (SQLiteEncrypt ((CipherContextNew (some p) (p.length : Int)).getD ⟨[]⟩)
        page page page.length)
      page.length = page := by
  have hpos : 0 < p.length := List.length_pos.mpr hp
  have hle : ¬((p.length : Int) ≤ 0) := by
    simpa using hp
  have hcc : CipherContextNew (some p) (p.length : Int) =
      some ⟨(sha1Digest p).take KEYSIZE⟩ := by
    simp [CipherContextNew, hle]
  rw [hcc]
  exact ⟨rfl, encrypt_decrypt_inplace _ page⟩

/-- Claim C6, witness at a concrete input. -/
theorem c6_encrypt_decrypt_roundtrip_witness :
    (CipherContextNew (some [97]) (([97] : List Nat).length : Int)).isSome ∧
    SQLiteDecrypt
      ((CipherContextNew (some [97]) (([97] : List Nat).length : Int)).getD
        ⟨[]⟩)
      (SQLiteEncrypt
        ((CipherContextNew (some [97]) (([97] : List Nat).length : Int)).getD
          ⟨[]⟩)
        [1, 2, 3] [1, 2, 3] ([1, 2, 3] : List Nat).length)
      (SQLiteEncrypt
        ((CipherContextNew (some [97]) (([97] : List Nat).length : Int)).getD
          ⟨[]⟩)
        [1, 2, 3] [1, 2, 3] ([1, 2, 3] : List Nat).length)
      ([1, 2, 3] : List Nat).length = [1, 2, 3] := by
  exact c6_encrypt_decrypt_roundtrip [97] [1, 2, 3] (by decide)

theorem CreateCodeCryptBlock_none_keys (ctx : Option Nat) (pagerId : Nat)
    (pagerPS pageSize : Int) :
    (CreateCodeCryptBlock ctx pagerId pagerPS pageSize none).readCtx = ctx ∧
    (CreateCodeCryptBlock ctx pagerId pagerPS pageSize none).writeCtx =
      ctx := by
  unfold CreateCodeCryptBlock
  dsimp only
  split <;> split <;> simp

theorem rekeyCodecOut_keys (block : CodecCryptBlock) (rc : Nat)
    (b : CodecCryptBlock)
    (hb : rekeyCodecOut (rekeyReconcileBlock block rc) = some b) :
    b.readCtx = b.writeCtx := by
  unfold rekeyCodecOut at hb
  split at hb
  · exact absurd hb (by simp)
  · rw [Option.some.injEq] at hb
    rw [← hb]
    unfold rekeyReconcileBlock
    split <;> simp

/-- Claim C4: every codec block observable after `sqlite3CodecAttach` returns,
and after `sqlite3_rekey_v2` returns on either its success or its failure
path, has read-key and write-key contexts that are the same pointer — both
absent or both the identical context. -/
theorem c4_read_write_keys_agree_at_rest :
    (∀ (h : CtxHeap) (primary : Option CodecCryptBlock) (nDb : Nat)
       (pKey : Option (List Nat)) (nKeyLen : Int) (pagerId : Nat)
       (pagerPS : Int) (b : CodecCryptBlock),
       (sqlite3CodecAttach h primary nDb pKey nKeyLen pagerId
         pagerPS).newCodec = some b →
       b.readCtx = b.writeCtx) ∧
    (∀ (h : CtxHeap) (codec : Option CodecCryptBlock)
       (pKey : Option (List Nat)) (nKey : Int) (pagerId : Nat) (pagerPS : Int)
       (o : PagerOracle) (b : CodecCryptBlock),
       (sqlite3_rekey_v2 h codec pKey nKey pagerId pagerPS o).codec = some b →
       b.readCtx = b.writeCtx) := by
  constructor
  · intro h primary nDb pKey nKeyLen pagerId pagerPS b hb
    unfold sqlite3CodecAttach at hb
    split at hb
    · split at hb
      · simp at hb
      · split at hb
        · simp at hb
        · split at hb
          · simp at hb
          · rw [Option.some.injEq] at hb
            rw [← hb]
            exact (CreateCodeCryptBlock_none_keys _ _ _ _).1.trans
              (CreateCodeCryptBlock_none_keys _ _ _ _).2.symm
    · split at hb
      · simp at hb
      · rw [Option.some.injEq] at hb
        rw [← hb]
        exact (CreateCodeCryptBlock_none_keys _ _ _ _).1.trans
          (CreateCodeCryptBlock_none_keys _ _ _ _).2.symm
  · intro h codec pKey nKey pagerId pagerPS o b hb
    unfold sqlite3_rekey_v2 at hb
    dsimp only at hb
    exact rekeyCodecOut_keys _ _ b hb

/-- Claim C4, witness at a concrete input. -/
theorem c4_read_write_keys_agree_at_rest_witness :
    ({ pager := 2, pageSize := 4, readCtx := some 0, writeCtx := some 0,
       cryptBuffer := some [0, 0, 0, 0] } : CodecCryptBlock).readCtx =
    ({ pager := 2, pageSize := 4, readCtx := some 0, writeCtx := some 0,
       cryptBuffer := some [0, 0, 0, 0] } : CodecCryptBlock).writeCtx := by
  exact c4_read_write_keys_agree_at_rest.1 [] none 0 (some [97]) 1 2 4
    { pager := 2, pageSize := 4, readCtx := some 0, writeCtx := some 0,
      cryptBuffer := some [0, 0, 0, 0] } (by decide)

/-- The page-manager oracle of claim C1's failing input: two pages, a
successful transaction begin and commit, reading page 1 fails with
`SQLITE_IOERR` (10), page 2 reads and writes fine, and the journal page
number 9 is outside the range. -/
def c1Oracle : PagerOracle :=
  { beginRc := 0, getRc := fun n => if n = 1 then 10 else 0,
    writeRc := fun _ => 0, commitRc := 0, pageCount := 2, mjPgno := 9 }

/-- Claim C1's failing input: rekeying a database encrypted under the context
at address 0 to the new passphrase "nk", against `c1Oracle`. -/
def c1Rekey : RekeyResult :=
  sqlite3_rekey_v2 [some ⟨[1, 0, 0, 0, 0, 0, 0, 0]⟩]
    (some { pager := 1, pageSize := 4, readCtx := some 0,
            writeCtx := some 0, cryptBuffer := some [0, 0, 0, 0] })
    (some [110, 107]) 2 1 4 c1Oracle

/-- Claim C1: the rekey rewrite loop overwrites `rc` on every iteration and
never breaks out, so a failure reading an earlier page is masked by later
pages succeeding — here reading page 1 fails with an I/O error, yet the
transaction is committed, no rollback happens, and the new write key (the
freshly allocated context at address 1) is installed as the read key. -/
theorem c1_rekey_commit_masks_page_failure :
    c1Oracle.getRc 1 = 10 ∧
    c1Rekey.committed = true ∧
    c1Rekey.rolledBack = false ∧
    c1Rekey.rc = SQLITE_OK ∧
    c1Rekey.codec =
      some { pager := 1, pageSize := 4, readCtx := some 1,
             writeCtx := some 1, cryptBuffer := some [0, 0, 0, 0] } ∧
    c1Rekey.heap = [none, some ⟨[69, 234, 143, 244, 217, 126, 71, 104]⟩] := by
  refine ⟨rfl, ?_, ?_, ?_, ?_, ?_⟩ <;> decide

/-- The block of claim C5's failing input as first constructed: page size
1024, scratch buffer allocated at 1024 bytes. -/
def c5Block0 : CodecCryptBlock := CreateCodeCryptBlock (some 0) 1 1024 (-1) none

/-- Claim C5's block after the pager notifies a page-size change to 4096. -/
def c5Block1 : CodecCryptBlock := SQLite3CodecSizeChangedCallback c5Block0 4096 0

/-- Claim C5's block after the next construction/update call (page size
argument `-1`, pager page size now 4096). -/
def c5Block2 : CodecCryptBlock := CreateCodeCryptBlock (some 0) 1 4096 (-1) (some c5Block1)

set_option maxRecDepth 20000 in
/-- Claim C5: a page-size change notification records the new page size in the
block itself, so the mismatch check at the next construction/update compares
the new size against itself, detects nothing, and keeps the old, smaller
scratch buffer: the scratch buffer's allocated size does not equal the page
size used by dispatch. -/
theorem c5_scratch_buffer_stale_after_size_change :
    c5Block0.pageSize = 1024 ∧
    (c5Block0.cryptBuffer.getD []).length = 1024 ∧
    c5Block1.pageSize = 4096 ∧
    (c5Block1.cryptBuffer.getD []).length = 1024 ∧
    c5Block2.pageSize = 4096 ∧
    (c5Block2.cryptBuffer.getD []).length = 1024 ∧
    c5Block2.cryptBuffer = c5Block1.cryptBuffer := by
  refine ⟨rfl, ?_, ?_, ?_, ?_, ?_, ?_⟩ <;> decide

theorem attach_nokey_reduce (h : CtxHeap) (primary : Option CodecCryptBlock)
    (nDb : Nat) (pKey : Option (List Nat)) (nKeyLen : Int) (pagerId : Nat)
    (pagerPS : Int) (hk : pKey = none ∨ nKeyLen = 0) :
    sqlite3CodecAttach h primary nDb pKey nKeyLen pagerId pagerPS =
      if nDb = 0 then ⟨SQLITE_OK, h, none⟩
      else
        match primary with
        | none => ⟨SQLITE_OK, h, none⟩
        | some pBlock =>
          match pBlock.readCtx with
          | none => ⟨SQLITE_OK, h, none⟩
          | some a =>
            ⟨SQLITE_OK, (CipherContextClone h a).1,
             some (CreateCodeCryptBlock (some (CipherContextClone h a).2)
               pagerId pagerPS (-1) none)⟩ := by
  unfold sqlite3CodecAttach
  rw [if_pos hk]

/-- Claim C8: attach with no key on the primary database (index 0) succeeds
and registers no codec block; attach with no key on a secondary database
succeeds with no block when the primary has no block or no read-key context,
and otherwise registers a block whose read and write keys are one freshly
allocated clone of the primary's read-key context — byte-exact, at a fresh
address, such that freeing either context (the secondary's via its block
destructor, or the primary's directly) leaves the other's bytes intact. -/
theorem c8_attach_no_key_inheritance :
    ∀ (h : CtxHeap) (primary : Option CodecCryptBlock)
      (pKey : Option (List Nat)) (nKeyLen : Int) (pagerId : Nat)
      (pagerPS : Int),
      pKey = none ∨ nKeyLen = 0 →
      sqlite3CodecAttach h primary 0 pKey nKeyLen pagerId pagerPS =
        ⟨SQLITE_OK, h, none⟩ ∧
      (∀ nDb, nDb ≠ 0 →
        (primary = none →
          sqlite3CodecAttach h primary nDb pKey nKeyLen pagerId pagerPS =
            ⟨SQLITE_OK, h, none⟩) ∧
        (∀ pb, primary = some pb →
          (pb.readCtx = none →
            sqlite3CodecAttach h primary nDb pKey nKeyLen pagerId pagerPS =
              ⟨SQLITE_OK, h, none⟩) ∧
          (∀ a c, pb.readCtx = some a → heapGet h a = some c →
            a < h.length →
            ∃ b, sqlite3CodecAttach h primary nDb pKey nKeyLen pagerId
                pagerPS = ⟨SQLITE_OK, h.concat (some c), some b⟩ ∧
              b.readCtx = some h.length ∧
              b.writeCtx = some h.length ∧
              h.length ≠ a ∧
              heapGet (h.concat (some c)) h.length = some c ∧
              heapGet (h.concat (some c)) a = some c ∧
              heapGet (FreeCodecCryptBlock (h.concat (some c)) b) a =
                some c ∧
              heapGet (heapFree (h.concat (some c)) a) h.length =
                some c))) := by
  intro h primary pKey nKeyLen pagerId pagerPS hk
  constructor
  · rw [attach_nokey_reduce h primary 0 pKey nKeyLen pagerId pagerPS hk]
    simp
  · intro nDb hnDb
    constructor
    · intro hp
      subst hp
      rw [attach_nokey_reduce h none nDb pKey nKeyLen pagerId pagerPS hk]
      simp [hnDb]
    · intro pb hp
      subst hp
      constructor
      · intro hra
        rw [attach_nokey_reduce h (some pb) nDb pKey nKeyLen pagerId pagerPS
          hk]
        simp [hnDb, hra]
      · intro a c hra hc ha
        have hclone1 : (CipherContextClone h a).1 = h.concat (some c) := by
          simp [CipherContextClone, hc]
        have hclone2 : (CipherContextClone h a).2 = h.length := rfl
        refine ⟨CreateCodeCryptBlock (some h.length) pagerId pagerPS (-1)
          none, ?_, ?_, ?_, ?_, ?_, ?_, ?_, ?_⟩
        · rw [attach_nokey_reduce h (some pb) nDb pKey nKeyLen pagerId
            pagerPS hk]
          simp [hnDb, hra, hclone1, hclone2]
        · exact (CreateCodeCryptBlock_none_keys _ _ _ _).1
        · exact (CreateCodeCryptBlock_none_keys _ _ _ _).2
        · exact ne_of_gt ha
        · exact heapGet_concat_self h (some c)
        · rw [heapGet_concat_lt h (some c) a ha]
          exact hc
        · have hbr := (CreateCodeCryptBlock_none_keys (some h.length) pagerId
            pagerPS (-1)).1
          have hbw := (CreateCodeCryptBlock_none_keys (some h.length) pagerId
            pagerPS (-1)).2
          have hfree : FreeCodecCryptBlock (h.concat (some c))
              (CreateCodeCryptBlock (some h.length) pagerId pagerPS (-1)
                none) = heapFree (h.concat (some c)) h.length := by
            simp [FreeCodecCryptBlock, hbr, hbw]
          rw [hfree, heapGet_free_ne _ _ _ (ne_of_gt ha),
            heapGet_concat_lt h (some c) a ha]
          exact hc
        · rw [heapGet_free_ne _ _ _ (Nat.ne_of_lt ha)]
          exact heapGet_concat_self h (some c)

/-- Claim C8, witness at a concrete input: an encrypted primary block whose
read key lives at address 0 of a one-entry heap, attach of database 1 with no
key. -/
theorem c8_attach_no_key_inheritance_witness :
    sqlite3CodecAttach [some ⟨[1, 0, 0, 0, 0, 0, 0, 0]⟩]
      (some { pager := 1, pageSize := 4, readCtx := some 0,
              writeCtx := some 0, cryptBuffer := some [0, 0, 0, 0] })
      0 none 7 2 4 =
      ⟨SQLITE_OK, [some ⟨[1, 0, 0, 0, 0, 0, 0, 0]⟩], none⟩ ∧
    (∃ b, sqlite3CodecAttach [some ⟨[1, 0, 0, 0, 0, 0, 0, 0]⟩]
        (some { pager := 1, pageSize := 4, readCtx := some 0,
                writeCtx := some 0, cryptBuffer := some [0, 0, 0, 0] })
        1 none 7 2 4 =
        ⟨SQLITE_OK,
         ([some ⟨[1, 0, 0, 0, 0, 0, 0, 0]⟩] : CtxHeap).concat
           (some ⟨[1, 0, 0, 0, 0, 0, 0, 0]⟩),
         some b⟩ ∧
      b.readCtx = some 1 ∧
      b.writeCtx = some 1 ∧
      (1 : Nat) ≠ 0 ∧
      heapGet (([some ⟨[1, 0, 0, 0, 0, 0, 0, 0]⟩] : CtxHeap).concat
        (some ⟨[1, 0, 0, 0, 0, 0, 0, 0]⟩)) 1 =
        some ⟨[1, 0, 0, 0, 0, 0, 0, 0]⟩ ∧
      heapGet (([some ⟨[1, 0, 0, 0, 0, 0, 0, 0]⟩] : CtxHeap).concat
        (some ⟨[1, 0, 0, 0, 0, 0, 0, 0]⟩)) 0 =
        some ⟨[1, 0, 0, 0, 0, 0, 0, 0]⟩ ∧
      heapGet (FreeCodecCryptBlock (([some ⟨[1, 0, 0, 0, 0, 0, 0, 0]⟩] :
        CtxHeap).concat (some ⟨[1, 0, 0, 0, 0, 0, 0, 0]⟩)) b) 0 =
        some ⟨[1, 0, 0, 0, 0, 0, 0, 0]⟩ ∧
      heapGet (heapFree (([some ⟨[1, 0, 0, 0, 0, 0, 0, 0]⟩] :
        CtxHeap).concat (some ⟨[1, 0, 0, 0, 0, 0, 0, 0]⟩)) 0) 1 =
        some ⟨[1, 0, 0, 0, 0, 0, 0, 0]⟩) := by
  constructor
  · exact (c8_attach_no_key_inheritance [some ⟨[1, 0, 0, 0, 0, 0, 0, 0]⟩]
      (some { pager := 1, pageSize := 4, readCtx := some 0,
              writeCtx := some 0, cryptBuffer := some [0, 0, 0, 0] })
      none 7 2 4 (Or.inl rfl)).1
  · exact (((c8_attach_no_key_inheritance [some ⟨[1, 0, 0, 0, 0, 0, 0, 0]⟩]
      (some { pager := 1, pageSize := 4, readCtx := some 0,
              writeCtx := some 0, cryptBuffer := some [0, 0, 0, 0] })
      none 7 2 4 (Or.inl rfl)).2 1 (by decide)).2
      { pager := 1, pageSize := 4, readCtx := some 0, writeCtx := some 0,
        cryptBuffer := some [0, 0, 0, 0] } rfl).2 0
      ⟨[1, 0, 0, 0, 0, 0, 0, 0]⟩ rfl rfl (by decide)

end XSqlite
